import Mathlib

/-!
Verification of the daxer client-side persistence, hydration and generation
pipeline.  The definitions below are a shallow embedding of the TypeScript
sources: `src/store.tsx` (application state, reducer, localStorage
save/load, hydrate effect), `src/db.ts` (IndexedDB blob store access),
`src/gemini.ts` (request part building), `src/components/ProjectSettings.tsx`
(upload handlers) and the panels (`GenerationPanel`, `EditPanel`).

JavaScript strings are modelled as `String`, `undefined`/`null` as
`Option`, JS `Map` lookups and the blob store as `String → Option String`,
and JS truthiness on strings (`x || y`) via explicit tests against the
empty string.
-/

namespace Daxer

/-- View identifier of the UI (`'generate' | 'gallery' | 'edit'` in `types.ts`). -/
inductive View where
  | generate
  | gallery
  | edit
deriving DecidableEq, Repr

/-- ReferenceImage record from `types.ts`. -/
structure ReferenceImage where
  id : String
  name : String
  dataUrl : String
  mimeType : String
deriving DecidableEq, Repr

/-- Character record from `types.ts`. -/
structure Character where
  id : String
  label : String
  name : String
  dataUrl : String
  mimeType : String
deriving DecidableEq, Repr

/-- GenerationSettings record from `types.ts`.  The string enums
(`AspectRatio`, `ImageSize`, `StylePreset`) are modelled as strings, as they
are at the JavaScript runtime; `temperature` is an arbitrary numeric. -/
structure GenerationSettings where
  aspectRatio : String
  imageSize : String
  temperature : Rat
  numberOfVariations : Nat
  stylePreset : String
deriving DecidableEq, Repr

/-- GeneratedImage record from `types.ts`.  `batchId` is the extra property
attached by `GenerationPanel` (`{ ...result, batchId }`) and read back when
grouping images; it is absent on images made elsewhere. -/
structure GeneratedImage where
  id : String
  projectId : String
  prompt : String
  dataUrl : String
  mimeType : String
  settings : GenerationSettings
  createdAt : Nat
  parentImageId : Option String
  maskDataUrl : Option String
  batchId : Option String
deriving DecidableEq, Repr

/-- Project record from `types.ts`. -/
structure Project where
  id : String
  name : String
  description : String
  stylePrompt : String
  referenceImages : List ReferenceImage
  characters : List Character
  createdAt : Nat
  updatedAt : Nat
deriving DecidableEq, Repr

/-- Status of a generation request (`types.ts`). -/
inductive RequestStatus where
  | pending
  | generating
  | completed
  | error
deriving DecidableEq, Repr

/-- GenerationRequest record from `types.ts`. -/
structure GenerationRequest where
  id : String
  projectId : String
  prompt : String
  status : RequestStatus
  result : Option GeneratedImage
  error : Option String
  settings : GenerationSettings
  startedAt : Nat
deriving DecidableEq, Repr

/-- The application state tree (`AppState` in `store.tsx`). -/
structure AppState where
  apiKey : String
  modelId : String
  projects : List Project
  activeProjectId : Option String
  generatedImages : List GeneratedImage
  generationQueue : List GenerationRequest
  defaultSettings : GenerationSettings
  selectedImageId : Option String
  view : View
  hydrated : Bool
deriving DecidableEq, Repr

/-- DEFAULT_SETTINGS constant of `store.tsx`. -/
def DEFAULT_SETTINGS : GenerationSettings :=
  { aspectRatio := "1:1"
    imageSize := "2K"
    temperature := 1
    numberOfVariations := 3
    stylePreset := "none" }

/-- JavaScript `v || fallback` where `v` is a possibly-absent string: an
absent value and the empty string are both falsy and select the fallback. -/
def jsOrString (v : Option String) (fallback : String) : String :=
  match v with
  | some s => if s = "" then fallback else s
  | none => fallback

/-- Partial update of a `Project` (`Partial<Project> & { id: string }` of the
UPDATE_PROJECT action).  A `none` field is an absent key of the JS object. -/
structure ProjectPatch where
  id : String
  name : Option String := none
  description : Option String := none
  stylePrompt : Option String := none
  referenceImages : Option (List ReferenceImage) := none
  characters : Option (List Character) := none
  createdAt : Option Nat := none

/-- JS object spread `{ ...p, ...patch, updatedAt: now }` used by the
UPDATE_PROJECT case of the reducer. -/
def applyProjectPatch (now : Nat) (p : Project) (patch : ProjectPatch) : Project :=
  { id := patch.id
    name := patch.name.getD p.name
    description := patch.description.getD p.description
    stylePrompt := patch.stylePrompt.getD p.stylePrompt
    referenceImages := patch.referenceImages.getD p.referenceImages
    characters := patch.characters.getD p.characters
    createdAt := patch.createdAt.getD p.createdAt
    updatedAt := now }

/-- Partial update of a `GenerationRequest`
(`Partial<GenerationRequest> & { id: string }` of UPDATE_GENERATION_REQUEST). -/
structure RequestPatch where
  id : String
  projectId : Option String := none
  prompt : Option String := none
  status : Option RequestStatus := none
  result : Option GeneratedImage := none
  error : Option String := none
  settings : Option GenerationSettings := none
  startedAt : Option Nat := none

/-- JS object spread `{ ...r, ...patch }` used by the
UPDATE_GENERATION_REQUEST case of the reducer. -/
def applyRequestPatch (r : GenerationRequest) (patch : RequestPatch) : GenerationRequest :=
  { id := patch.id
    projectId := patch.projectId.getD r.projectId
    prompt := patch.prompt.getD r.prompt
    status := patch.status.getD r.status
    result := match patch.result with
      | some x => some x
      | none => r.result
    error := match patch.error with
      | some e => some e
      | none => r.error
    settings := patch.settings.getD r.settings
    startedAt := patch.startedAt.getD r.startedAt }

/-- Partial update of `GenerationSettings` (SET_DEFAULT_SETTINGS payload). -/
structure SettingsPatch where
  aspectRatio : Option String := none
  imageSize : Option String := none
  temperature : Option Rat := none
  numberOfVariations : Option Nat := none
  stylePreset : Option String := none

/-- JS object spread `{ ...settings, ...patch }`. -/
def applySettingsPatch (s : GenerationSettings) (patch : SettingsPatch) : GenerationSettings :=
  { aspectRatio := patch.aspectRatio.getD s.aspectRatio
    imageSize := patch.imageSize.getD s.imageSize
    temperature := patch.temperature.getD s.temperature
    numberOfVariations := patch.numberOfVariations.getD s.numberOfVariations
    stylePreset := patch.stylePreset.getD s.stylePreset }

/-- The map handed to HYDRATE_IMAGE_BLOBS (`Map<string, string>` in the
source); `none` is an id absent from the map. -/
def ImageMap : Type := String → Option String

/-- The action union dispatched through the reducer (`Action` in `store.tsx`). -/
inductive Action where
  | setApiKey (key : String)
  | setModelId (modelId : String)
  | createProject (p : Project)
  | updateProject (patch : ProjectPatch)
  | deleteProject (projectId : String)
  | setActiveProject (projectId : Option String)
  | addReferenceImage (projectId : String) (image : ReferenceImage)
  | addReferenceImagesBatch (projectId : String) (images : List ReferenceImage)
  | removeReferenceImage (projectId : String) (imageId : String)
  | addCharacter (projectId : String) (character : Character)
  | addCharactersBatch (projectId : String) (characters : List Character)
  | removeCharacter (projectId : String) (characterId : String)
  | updateCharacterLabel (projectId : String) (characterId : String) (label : String)
  | addGenerationRequest (r : GenerationRequest)
  | updateGenerationRequest (patch : RequestPatch)
  | removeGenerationRequest (requestId : String)
  | addGeneratedImage (img : GeneratedImage)
  | deleteGeneratedImage (imageId : String)
  | setDefaultSettings (patch : SettingsPatch)
  | setSelectedImage (imageId : Option String)
  | setView (v : View)
  | hydrateImageBlobs (imageMap : ImageMap)

/-- Hydration of one payload field:
`dataUrl: imageMap.get(img.id) || img.dataUrl` — a present, non-empty map
entry replaces the field, otherwise (absent key or empty string, both falsy)
the old value is kept. -/
def hydratedDataUrl (imageMap : ImageMap) (id dataUrl : String) : String :=
  jsOrString (imageMap id) dataUrl

/-- HYDRATE_IMAGE_BLOBS on a reference-image collection: fill in the
payload from the map, then drop entries whose payload is still falsy
(`.map(...).filter((img) => img.dataUrl)`). -/
def hydrateRefList (imageMap : ImageMap) (l : List ReferenceImage) : List ReferenceImage :=
  (l.map fun img => { img with dataUrl := hydratedDataUrl imageMap img.id img.dataUrl }).filter
    fun img => img.dataUrl ≠ ""

/-- HYDRATE_IMAGE_BLOBS on a character collection. -/
def hydrateCharList (imageMap : ImageMap) (l : List Character) : List Character :=
  (l.map fun c => { c with dataUrl := hydratedDataUrl imageMap c.id c.dataUrl }).filter
    fun c => c.dataUrl ≠ ""

/-- HYDRATE_IMAGE_BLOBS on the generated-image collection. -/
def hydrateGenList (imageMap : ImageMap) (l : List GeneratedImage) : List GeneratedImage :=
  (l.map fun img => { img with dataUrl := hydratedDataUrl imageMap img.id img.dataUrl }).filter
    fun img => img.dataUrl ≠ ""

/-- HYDRATE_IMAGE_BLOBS on one project: restore reference images and
characters, dropping orphaned entries. -/
def hydrateProject (imageMap : ImageMap) (p : Project) : Project :=
  { p with
    referenceImages := hydrateRefList imageMap p.referenceImages
    characters := hydrateCharList imageMap p.characters }

/-- The pure state-transition function of `store.tsx` (`reducer`).  The
TypeScript reducer reads the clock (`Date.now()`) in a few cases; the
current time is passed in as `now`. -/
def reducer (now : Nat) (state : AppState) : Action → AppState
  | .setApiKey key => { state with apiKey := key }
  | .setModelId modelId => { state with modelId := modelId }
  | .createProject p => { state with projects := state.projects ++ [p] }
  | .updateProject patch =>
      { state with
        projects := state.projects.map fun p =>
          if p.id = patch.id then applyProjectPatch now p patch else p }
  | .deleteProject projectId =>
      let newProjects := state.projects.filter fun p => p.id ≠ projectId
      { state with
        projects := newProjects
        activeProjectId :=
          if state.activeProjectId = some projectId then
            match newProjects.head? with
            | some p => if p.id = "" then none else some p.id
            | none => none
          else state.activeProjectId
        generatedImages :=
          state.generatedImages.filter fun img => img.projectId ≠ projectId }
  | .setActiveProject projectId =>
      { state with activeProjectId := projectId, selectedImageId := none }
  | .addReferenceImage projectId image =>
      { state with
        projects := state.projects.map fun p =>
          if p.id = projectId then
            { p with referenceImages := p.referenceImages ++ [image], updatedAt := now }
          else p }
  | .addReferenceImagesBatch projectId images =>
      { state with
        projects := state.projects.map fun p =>
          if p.id = projectId then
            { p with referenceImages := p.referenceImages ++ images, updatedAt := now }
          else p }
  | .removeReferenceImage projectId imageId =>
      { state with
        projects := state.projects.map fun p =>
          if p.id = projectId then
            { p with
              referenceImages := p.referenceImages.filter fun img => img.id ≠ imageId
              updatedAt := now }
          else p }
  | .addCharacter projectId character =>
      { state with
        projects := state.projects.map fun p =>
          if p.id = projectId then
            { p with characters := p.characters ++ [character], updatedAt := now }
          else p }
  | .addCharactersBatch projectId characters =>
      { state with
        projects := state.projects.map fun p =>
          if p.id = projectId then
            { p with characters := p.characters ++ characters, updatedAt := now }
          else p }
  | .removeCharacter projectId characterId =>
      { state with
        projects := state.projects.map fun p =>
          if p.id = projectId then
            { p with
              characters := p.characters.filter fun c => c.id ≠ characterId
              updatedAt := now }
          else p }
  | .updateCharacterLabel projectId characterId label =>
      { state with
        projects := state.projects.map fun p =>
          if p.id = projectId then
            { p with
              characters := p.characters.map fun c =>
                if c.id = characterId then { c with label := label } else c
              updatedAt := now }
          else p }
  | .addGenerationRequest r =>
      { state with generationQueue := state.generationQueue ++ [r] }
  | .updateGenerationRequest patch =>
      { state with
        generationQueue := state.generationQueue.map fun r =>
          if r.id = patch.id then applyRequestPatch r patch else r }
  | .removeGenerationRequest requestId =>
      { state with
        generationQueue := state.generationQueue.filter fun r => r.id ≠ requestId }
  | .addGeneratedImage img =>
      { state with generatedImages := img :: state.generatedImages }
  | .deleteGeneratedImage imageId =>
      { state with
        generatedImages := state.generatedImages.filter fun img => img.id ≠ imageId
        selectedImageId :=
          if state.selectedImageId = some imageId then none else state.selectedImageId }
  | .setDefaultSettings patch =>
      { state with defaultSettings := applySettingsPatch state.defaultSettings patch }
  | .setSelectedImage imageId => { state with selectedImageId := imageId }
  | .setView v => { state with view := v }
  | .hydrateImageBlobs imageMap =>
      { state with
        projects := state.projects.map (hydrateProject imageMap)
        generatedImages := hydrateGenList imageMap state.generatedImages
        hydrated := true }

-- ---- localStorage metadata document (`SavedState` of `store.tsx`) ----

/-- The persisted metadata document.  Every field is optional in the
TypeScript interface; an absent field is `none`. -/
structure SavedState where
  apiKey : Option String
  modelId : Option String
  projects : Option (List Project)
  activeProjectId : Option (Option String)
  generatedImages : Option (List GeneratedImage)
  defaultSettings : Option GenerationSettings
deriving DecidableEq, Repr

/-- Payload-stripping of a reference image performed by `saveState`
(`{ ...img, dataUrl: '' }`). -/
def stripRef (img : ReferenceImage) : ReferenceImage := { img with dataUrl := "" }

/-- Payload-stripping of a character performed by `saveState`. -/
def stripChar (c : Character) : Character := { c with dataUrl := "" }

/-- Payload-stripping of a generated image performed by `saveState`. -/
def stripGen (img : GeneratedImage) : GeneratedImage := { img with dataUrl := "" }

/-- Payload-stripping of one project performed by `saveState`. -/
def stripProject (p : Project) : Project :=
  { p with
    referenceImages := p.referenceImages.map stripRef
    characters := p.characters.map stripChar }

/-- The metadata projection written to localStorage (`saveState` in
`store.tsx`): every `dataUrl` is replaced by the empty string; the
generation queue, selection and view are not persisted. -/
def saveState (state : AppState) : SavedState :=
  { apiKey := some state.apiKey
    modelId := some state.modelId
    projects := some (state.projects.map stripProject)
    activeProjectId := some state.activeProjectId
    generatedImages := some (state.generatedImages.map stripGen)
    defaultSettings := some state.defaultSettings }

/-- Construction of the startup state from a loaded document
(`getInitialState` in `store.tsx`).  JS `||` defaults are rendered with
explicit falsiness on strings; object and array values are always truthy. -/
def getInitialState (saved : SavedState) : AppState :=
  { apiKey := jsOrString saved.apiKey ""
    modelId := jsOrString saved.modelId "gemini-2.5-flash-image"
    projects := saved.projects.getD []
    activeProjectId :=
      match saved.activeProjectId with
      | some (some id) => if id = "" then none else some id
      | _ => none
    generatedImages := saved.generatedImages.getD []
    generationQueue := []
    defaultSettings := saved.defaultSettings.getD DEFAULT_SETTINGS
    selectedImageId := none
    view := .generate
    hydrated := false }

-- ---- Blob store (`db.ts`) ----

/-- The IndexedDB images object store: id to stored dataUrl. -/
def BlobStore : Type := String → Option String

/-- Lookup map built by `getMultipleImageBlobs` in `db.ts`: for each
requested id, the entry is included only when a record exists and its
`dataUrl` is truthy (non-empty). -/
def getMultipleImageBlobs (store : BlobStore) (ids : List String) : ImageMap :=
  fun id =>
    if ids.contains id then
      match store id with
      | some v => if v = "" then none else some v
      | none => none
    else none

/-- Id-collection step of the hydrate effect in `StoreProvider`: reference
image, character and generated image ids whose `dataUrl` is falsy, in
source iteration order. -/
def collectHydrationIds (state : AppState) : List String :=
  (state.projects.flatMap fun p =>
    ((p.referenceImages.filter fun img => img.dataUrl = "").map ReferenceImage.id)
      ++ ((p.characters.filter fun c => c.dataUrl = "").map Character.id))
    ++ ((state.generatedImages.filter fun img => img.dataUrl = "").map GeneratedImage.id)

/-- The hydrate effect of `StoreProvider`: collect ids, look them up in the
blob store, and dispatch HYDRATE_IMAGE_BLOBS with the resulting map (the
empty-id-list branch dispatches with an empty map, which coincides with
`getMultipleImageBlobs store []`). -/
def hydrateFromStore (now : Nat) (store : BlobStore) (state : AppState) : AppState :=
  reducer now state
    (.hydrateImageBlobs (getMultipleImageBlobs store (collectHydrationIds state)))

-- ---- Sample data for witnesses and counterexamples ----

/-- Sample project with id `a`. -/
def projA : Project :=
  { id := "a", name := "A", description := "", stylePrompt := ""
    referenceImages := [], characters := [], createdAt := 0, updatedAt := 0 }

/-- Sample project with id `b`. -/
def projB : Project :=
  { id := "b", name := "B", description := "", stylePrompt := ""
    referenceImages := [], characters := [], createdAt := 0, updatedAt := 0 }

/-- Sample generated image belonging to project `a`. -/
def imgA : GeneratedImage :=
  { id := "ga", projectId := "a", prompt := "a cat"
    dataUrl := "data:image/png;base64,AAAA", mimeType := "image/png"
    settings := DEFAULT_SETTINGS, createdAt := 0
    parentImageId := none, maskDataUrl := none, batchId := none }

/-- Sample generated image belonging to project `b`. -/
def imgB : GeneratedImage :=
  { id := "gb", projectId := "b", prompt := "a dog"
    dataUrl := "data:image/png;base64,BBBB", mimeType := "image/png"
    settings := DEFAULT_SETTINGS, createdAt := 0
    parentImageId := none, maskDataUrl := none, batchId := none }

/-- Sample state holding projects `a` and `b` and one generated image each. -/
def sampleStateAB : AppState :=
  { apiKey := "k", modelId := "gemini-2.5-flash-image"
    projects := [projA, projB], activeProjectId := some "a"
    generatedImages := [imgA, imgB], generationQueue := []
    defaultSettings := DEFAULT_SETTINGS, selectedImageId := none
    view := .generate, hydrated := true }

-- ---- C3: DELETE_PROJECT cascade ----

/-- C3: deleting project `P` removes `P` (and with it its reference images
and characters, which only live inside `P`) and removes exactly those
generated images whose `projectId` equals `P.id`, leaving generated images
of other projects unchanged and in order — all in the one transition. -/
theorem deleteProject_cascades (now : Nat) (s : AppState) (P : Project)
    (hP : P ∈ s.projects) (hother : ∃ Q ∈ s.projects, Q.id ≠ P.id) :
    (∀ p ∈ (reducer now s (.deleteProject P.id)).projects, p.id ≠ P.id) ∧
    P ∉ (reducer now s (.deleteProject P.id)).projects ∧
    (reducer now s (.deleteProject P.id)).generatedImages
      = s.generatedImages.filter (fun img => img.projectId ≠ P.id) ∧
    (∀ img ∈ s.generatedImages, img.projectId ≠ P.id →
      img ∈ (reducer now s (.deleteProject P.id)).generatedImages) ∧
    (∀ img ∈ s.generatedImages, img.projectId = P.id →
      img ∉ (reducer now s (.deleteProject P.id)).generatedImages) := by
  refine ⟨?_, ?_, rfl, ?_, ?_⟩
  · intro p hp
    simp only [reducer, List.mem_filter, decide_eq_true_eq] at hp
    exact hp.2
  · simp [reducer, List.mem_filter]
  · intro img hmem hne
    simp only [reducer, List.mem_filter, decide_eq_true_eq]
    exact ⟨hmem, hne⟩
  · intro img hmem heq
    simp [reducer, List.mem_filter, heq]

/-- Witness for C3 at a concrete two-project state. -/
theorem deleteProject_cascades_witness :
    imgA ∉ (reducer 0 sampleStateAB (.deleteProject "a")).generatedImages ∧
    imgB ∈ (reducer 0 sampleStateAB (.deleteProject "a")).generatedImages ∧
    projA ∉ (reducer 0 sampleStateAB (.deleteProject "a")).projects := by
  have h := deleteProject_cascades 0 sampleStateAB projA (by decide)
    ⟨projB, by decide, by decide⟩
  exact ⟨h.2.2.2.2 imgA (by decide) (by decide),
    h.2.2.2.1 imgB (by decide) (by decide), h.2.1⟩

-- ---- C9: DELETE_GENERATED_IMAGE frame conditions ----

/-- C9: DELETE_GENERATED_IMAGE nulls the selection exactly when it pointed
at the deleted image, and every state field other than `generatedImages`
and `selectedImageId` is unchanged. -/
theorem deleteGeneratedImage_frame (now : Nat) (s : AppState) (imageId : String) :
    (reducer now s (.deleteGeneratedImage imageId)).selectedImageId
      = (if s.selectedImageId = some imageId then none else s.selectedImageId) ∧
    (reducer now s (.deleteGeneratedImage imageId)).apiKey = s.apiKey ∧
    (reducer now s (.deleteGeneratedImage imageId)).modelId = s.modelId ∧
    (reducer now s (.deleteGeneratedImage imageId)).projects = s.projects ∧
    (reducer now s (.deleteGeneratedImage imageId)).activeProjectId = s.activeProjectId ∧
    (reducer now s (.deleteGeneratedImage imageId)).generationQueue = s.generationQueue ∧
    (reducer now s (.deleteGeneratedImage imageId)).defaultSettings = s.defaultSettings ∧
    (reducer now s (.deleteGeneratedImage imageId)).view = s.view ∧
    (reducer now s (.deleteGeneratedImage imageId)).hydrated = s.hydrated :=
  ⟨rfl, rfl, rfl, rfl, rfl, rfl, rfl, rfl, rfl⟩

-- ---- C7: DELETE_PROJECT active-project promotion ----

/-- Project with the empty string as id, exercising the JS falsiness of
`newProjects[0]?.id || null`. -/
def projEmptyId : Project :=
  { id := "", name := "E", description := "", stylePrompt := ""
    referenceImages := [], characters := [], createdAt := 0, updatedAt := 0 }

/-- State whose active project is `a` and whose other project has the empty
string as id. -/
def stateWithEmptyIdProject : AppState :=
  { apiKey := "k", modelId := "gemini-2.5-flash-image"
    projects := [projA, projEmptyId], activeProjectId := some "a"
    generatedImages := [], generationQueue := []
    defaultSettings := DEFAULT_SETTINGS, selectedImageId := none
    view := .generate, hydrated := true }

/-- Counterexample to C7 as stated: deleting the active project `a` leaves
the project with id `""` as the first (and only) remaining project, yet the
resulting `activeProjectId` is `none`, not the id of that first remaining
project — `newProjects[0]?.id || null` treats the empty-string id as falsy. -/
theorem deleteProject_promotion_counterexample :
    stateWithEmptyIdProject.activeProjectId = some "a" ∧
    (stateWithEmptyIdProject.projects.filter fun p => p.id ≠ "a") = [projEmptyId] ∧
    (reducer 0 stateWithEmptyIdProject (.deleteProject "a")).activeProjectId = none ∧
    (none : Option String) ≠ some projEmptyId.id := by
  decide

/-- C7 (amended): deleting the active project promotes the first remaining
project in store order unless its id is the empty string (falsy in JS), in
which case — as when no project remains — `activeProjectId` becomes `none`;
deleting a non-active project leaves `activeProjectId` unchanged. -/
theorem deleteProject_promotion (now : Nat) (s : AppState) (projectId : String) :
    (s.activeProjectId = some projectId →
      (reducer now s (.deleteProject projectId)).activeProjectId
        = match (s.projects.filter fun p => p.id ≠ projectId).head? with
          | some p => if p.id = "" then none else some p.id
          | none => none) ∧
    (s.activeProjectId ≠ some projectId →
      (reducer now s (.deleteProject projectId)).activeProjectId = s.activeProjectId) := by
  constructor
  · intro h
    simp [reducer, h]
  · intro h
    simp [reducer, h]

/-- Witness for C7 (amended) at concrete states: promotion to project `b`
when it remains, and no promotion onto the falsy empty id. -/
theorem deleteProject_promotion_witness :
    (reducer 0 sampleStateAB (.deleteProject "a")).activeProjectId = some "b" ∧
    (reducer 0 stateWithEmptyIdProject (.deleteProject "a")).activeProjectId = none := by
  constructor
  · have h := (deleteProject_promotion 0 sampleStateAB "a").1 (by decide)
    exact h.trans (by decide)
  · have h := (deleteProject_promotion 0 stateWithEmptyIdProject "a").1 (by decide)
    exact h.trans (by decide)

-- ---- Hydration claims ----

/-- Presence of an image entity (reference image, character or generated
image) with a given id somewhere in the state tree. -/
def stateHasImageId (s : AppState) (x : String) : Prop :=
  (∃ p ∈ s.projects, (∃ r ∈ p.referenceImages, r.id = x) ∨ ∃ c ∈ p.characters, c.id = x)
    ∨ ∃ g ∈ s.generatedImages, g.id = x

instance (s : AppState) (x : String) : Decidable (stateHasImageId s x) := by
  unfold stateHasImageId
  infer_instance

/-- Presence of an image id in a persisted metadata document. -/
def savedListsImageId (doc : SavedState) (x : String) : Prop :=
  (∃ p ∈ doc.projects.getD [],
      (∃ r ∈ p.referenceImages, r.id = x) ∨ ∃ c ∈ p.characters, c.id = x)
    ∨ ∃ g ∈ doc.generatedImages.getD [], g.id = x

instance (doc : SavedState) (x : String) : Decidable (savedListsImageId doc x) := by
  unfold savedListsImageId
  infer_instance

/-- Any reference image surviving hydration stems from an input entry with
the same id, carries the looked-up payload, and that payload is non-empty. -/
theorem mem_hydrateRefList {m : ImageMap} {l : List ReferenceImage} {r : ReferenceImage}
    (hr : r ∈ hydrateRefList m l) :
    ∃ r₀ ∈ l, r₀.id = r.id ∧ r.dataUrl = hydratedDataUrl m r₀.id r₀.dataUrl ∧
      r.dataUrl ≠ "" := by
  unfold hydrateRefList at hr
  simp only [List.mem_filter, List.mem_map, decide_eq_true_eq] at hr
  obtain ⟨⟨r₀, h0, heq⟩, hne⟩ := hr
  subst heq
  exact ⟨r₀, h0, rfl, rfl, hne⟩

/-- Character analogue of `mem_hydrateRefList`. -/
theorem mem_hydrateCharList {m : ImageMap} {l : List Character} {c : Character}
    (hc : c ∈ hydrateCharList m l) :
    ∃ c₀ ∈ l, c₀.id = c.id ∧ c.dataUrl = hydratedDataUrl m c₀.id c₀.dataUrl ∧
      c.dataUrl ≠ "" := by
  unfold hydrateCharList at hc
  simp only [List.mem_filter, List.mem_map, decide_eq_true_eq] at hc
  obtain ⟨⟨c₀, h0, heq⟩, hne⟩ := hc
  subst heq
  exact ⟨c₀, h0, rfl, rfl, hne⟩

/-- Generated-image analogue of `mem_hydrateRefList`. -/
theorem mem_hydrateGenList {m : ImageMap} {l : List GeneratedImage} {g : GeneratedImage}
    (hg : g ∈ hydrateGenList m l) :
    ∃ g₀ ∈ l, g₀.id = g.id ∧ g.dataUrl = hydratedDataUrl m g₀.id g₀.dataUrl ∧
      g.dataUrl ≠ "" := by
  unfold hydrateGenList at hg
  simp only [List.mem_filter, List.mem_map, decide_eq_true_eq] at hg
  obtain ⟨⟨g₀, h0, heq⟩, hne⟩ := hg
  subst heq
  exact ⟨g₀, h0, rfl, rfl, hne⟩

/-- Every payload of the state loaded back from a saved metadata document
is the empty string. -/
theorem loaded_payloads_empty (s : AppState) :
    (∀ p ∈ (getInitialState (saveState s)).projects,
      (∀ r ∈ p.referenceImages, r.dataUrl = "") ∧ ∀ c ∈ p.characters, c.dataUrl = "") ∧
    ∀ g ∈ (getInitialState (saveState s)).generatedImages, g.dataUrl = "" := by
  refine ⟨?_, ?_⟩
  · intro p hp
    simp only [getInitialState, saveState, Option.getD_some, List.mem_map] at hp
    obtain ⟨q, _, rfl⟩ := hp
    constructor
    · intro r hr
      simp only [stripProject, List.mem_map] at hr
      obtain ⟨r₀, _, rfl⟩ := hr.imp fun a h => h
      rfl
    · intro c hc
      simp only [stripProject, List.mem_map] at hc
      obtain ⟨c₀, _, rfl⟩ := hc.imp fun a h => h
      rfl
  · intro g hg
    simp only [getInitialState, saveState, Option.getD_some, List.mem_map] at hg
    obtain ⟨g₀, _, rfl⟩ := hg.imp fun a h => h
    rfl

/-- C1: when the saved metadata lists an image id that has no blob-store
entry, the state produced by the startup hydration pipeline (id collection,
`getMultipleImageBlobs` lookup, HYDRATE_IMAGE_BLOBS) contains no entity
with that id, and its `hydrated` flag is set. -/
theorem hydration_drops_orphans (now : Nat) (s : AppState) (store : BlobStore)
    (x : String)
    (hlisted : savedListsImageId (saveState s) x)
    (hmissing : getMultipleImageBlobs store
      (collectHydrationIds (getInitialState (saveState s))) x = none) :
    ¬ stateHasImageId (hydrateFromStore now store (getInitialState (saveState s))) x ∧
    (hydrateFromStore now store (getInitialState (saveState s))).hydrated = true := by
  have hmap := hmissing
  have hempty := loaded_payloads_empty s
  refine ⟨?_, rfl⟩
  intro hcon
  unfold hydrateFromStore at hcon
  rcases hcon with ⟨p, hp, hinner⟩ | ⟨g, hg, hgid⟩
  · simp only [reducer, List.mem_map] at hp
    obtain ⟨p₀, hp₀, rfl⟩ := hp
    rcases hinner with ⟨r, hr, hrid⟩ | ⟨c, hc, hcid⟩
    · obtain ⟨r₀, hr₀, hid, hurl, hne⟩ := mem_hydrateRefList hr
      have h0 : r₀.dataUrl = "" := (hempty.1 p₀ hp₀).1 r₀ hr₀
      rw [hurl, h0, hid, hrid] at hne
      unfold hydratedDataUrl jsOrString at hne
      rw [hmap] at hne
      exact hne rfl
    · obtain ⟨c₀, hc₀, hid, hurl, hne⟩ := mem_hydrateCharList hc
      have h0 : c₀.dataUrl = "" := (hempty.1 p₀ hp₀).2 c₀ hc₀
      rw [hurl, h0, hid, hcid] at hne
      unfold hydratedDataUrl jsOrString at hne
      rw [hmap] at hne
      exact hne rfl
  · simp only [reducer] at hg
    obtain ⟨g₀, hg₀, hid, hurl, hne⟩ := mem_hydrateGenList hg
    have h0 : g₀.dataUrl = "" := hempty.2 g₀ hg₀
    rw [hurl, h0, hid, hgid] at hne
    unfold hydratedDataUrl jsOrString at hne
    rw [hmap] at hne
    exact hne rfl

/-- Witness for C1: a state whose metadata lists image id `ga`, hydrated
against an empty blob store, yields no entity with id `ga` and is marked
hydrated. -/
theorem hydration_drops_orphans_witness :
    ¬ stateHasImageId
        (hydrateFromStore 0 (fun _ => none) (getInitialState (saveState sampleStateAB)))
        "ga" ∧
    (hydrateFromStore 0 (fun _ => none)
        (getInitialState (saveState sampleStateAB))).hydrated = true :=
  hydration_drops_orphans 0 sampleStateAB (fun _ => none) "ga" (by decide) (by decide)

-- ---- C8: retention of already-hydrated payloads ----

/-- C8: HYDRATE_IMAGE_BLOBS keeps every entity whose in-memory payload is
already non-empty — with the payload unchanged — even when its id is absent
from the supplied map, and (shown here for the generated-image collection)
it keeps exactly the entities whose payload is non-empty after the lookup. -/
theorem hydration_retains_nonempty (now : Nat) (s : AppState) (m : ImageMap) :
    (∀ p ∈ s.projects, ∀ r ∈ p.referenceImages, r.dataUrl ≠ "" → m r.id = none →
      ∃ p' ∈ (reducer now s (.hydrateImageBlobs m)).projects,
        p'.id = p.id ∧ r ∈ p'.referenceImages) ∧
    (∀ p ∈ s.projects, ∀ c ∈ p.characters, c.dataUrl ≠ "" → m c.id = none →
      ∃ p' ∈ (reducer now s (.hydrateImageBlobs m)).projects,
        p'.id = p.id ∧ c ∈ p'.characters) ∧
    (∀ g ∈ s.generatedImages, g.dataUrl ≠ "" → m g.id = none →
      g ∈ (reducer now s (.hydrateImageBlobs m)).generatedImages) ∧
    (∀ g, g ∈ (reducer now s (.hydrateImageBlobs m)).generatedImages ↔
      g.dataUrl ≠ "" ∧ ∃ g₀ ∈ s.generatedImages,
        g = { g₀ with dataUrl := hydratedDataUrl m g₀.id g₀.dataUrl }) := by
  have keepRef : ∀ (r : ReferenceImage), r.dataUrl ≠ "" → m r.id = none →
      ∀ l, r ∈ l → r ∈ hydrateRefList m l := by
    intro r hne hm l hl
    unfold hydrateRefList
    simp only [List.mem_filter, List.mem_map, decide_eq_true_eq]
    refine ⟨⟨r, hl, ?_⟩, hne⟩
    have : hydratedDataUrl m r.id r.dataUrl = r.dataUrl := by
      unfold hydratedDataUrl jsOrString
      rw [hm]
    rw [this]
  have keepChar : ∀ (c : Character), c.dataUrl ≠ "" → m c.id = none →
      ∀ l, c ∈ l → c ∈ hydrateCharList m l := by
    intro c hne hm l hl
    unfold hydrateCharList
    simp only [List.mem_filter, List.mem_map, decide_eq_true_eq]
    refine ⟨⟨c, hl, ?_⟩, hne⟩
    have : hydratedDataUrl m c.id c.dataUrl = c.dataUrl := by
      unfold hydratedDataUrl jsOrString
      rw [hm]
    rw [this]
  refine ⟨?_, ?_, ?_, ?_⟩
  · intro p hp r hr hne hm
    refine ⟨hydrateProject m p, ?_, rfl, keepRef r hne hm _ hr⟩
    simp only [reducer, List.mem_map]
    exact ⟨p, hp, rfl⟩
  · intro p hp c hc hne hm
    refine ⟨hydrateProject m p, ?_, rfl, keepChar c hne hm _ hc⟩
    simp only [reducer, List.mem_map]
    exact ⟨p, hp, rfl⟩
  · intro g hg hne hm
    show g ∈ hydrateGenList m s.generatedImages
    unfold hydrateGenList
    simp only [List.mem_filter, List.mem_map, decide_eq_true_eq]
    refine ⟨⟨g, hg, ?_⟩, hne⟩
    have : hydratedDataUrl m g.id g.dataUrl = g.dataUrl := by
      unfold hydratedDataUrl jsOrString
      rw [hm]
    rw [this]
  · intro g
    show g ∈ hydrateGenList m s.generatedImages ↔ _
    unfold hydrateGenList
    simp only [List.mem_filter, List.mem_map, decide_eq_true_eq]
    constructor
    · rintro ⟨⟨g₀, h0, rfl⟩, hne⟩
      exact ⟨hne, g₀, h0, rfl⟩
    · rintro ⟨hne, g₀, h0, rfl⟩
      exact ⟨⟨g₀, h0, rfl⟩, hne⟩

/-- Witness for C8: an image with an already non-empty payload survives
hydration against an empty map, unchanged. -/
theorem hydration_retains_nonempty_witness :
    imgA ∈ (reducer 0 sampleStateAB
      (.hydrateImageBlobs (fun _ => none))).generatedImages :=
  (hydration_retains_nonempty 0 sampleStateAB (fun _ => none)).2.2.1 imgA
    (by decide) (by decide) rfl

-- ---- C2: save/load/hydrate round-trip ----

/-- All reference images across all projects of a state. -/
def allReferenceImages (s : AppState) : List ReferenceImage :=
  s.projects.flatMap Project.referenceImages

/-- All characters across all projects of a state. -/
def allCharacters (s : AppState) : List Character :=
  s.projects.flatMap Project.characters

/-- Strip-then-hydrate restores a reference-image list whose original
payloads are non-empty and present in the map under the entity ids. -/
theorem hydrate_strip_refs (m : ImageMap) (l : List ReferenceImage)
    (hm : ∀ r ∈ l, m r.id = some r.dataUrl) (hne : ∀ r ∈ l, r.dataUrl ≠ "") :
    hydrateRefList m (l.map stripRef) = l := by
  unfold hydrateRefList
  rw [List.map_map]
  have hmap : l.map
      ((fun img : ReferenceImage =>
        { img with dataUrl := hydratedDataUrl m img.id img.dataUrl }) ∘ stripRef) = l := by
    refine (List.map_congr_left ?_).trans (List.map_id l)
    intro r hr
    obtain ⟨rid, rname, rurl, rmime⟩ := r
    have hmr : m rid = some rurl := hm _ hr
    have hner : rurl ≠ "" := hne _ hr
    simp [stripRef, hydratedDataUrl, jsOrString, hmr, hner]
  rw [hmap]
  exact List.filter_eq_self.mpr fun r hr => by simp [hne r hr]

/-- Character analogue of `hydrate_strip_refs`. -/
theorem hydrate_strip_chars (m : ImageMap) (l : List Character)
    (hm : ∀ c ∈ l, m c.id = some c.dataUrl) (hne : ∀ c ∈ l, c.dataUrl ≠ "") :
    hydrateCharList m (l.map stripChar) = l := by
  unfold hydrateCharList
  rw [List.map_map]
  have hmap : l.map
      ((fun c : Character =>
        { c with dataUrl := hydratedDataUrl m c.id c.dataUrl }) ∘ stripChar) = l := by
    refine (List.map_congr_left ?_).trans (List.map_id l)
    intro c hc
    obtain ⟨cid, clabel, cname, curl, cmime⟩ := c
    have hmc : m cid = some curl := hm _ hc
    have hnec : curl ≠ "" := hne _ hc
    simp [stripChar, hydratedDataUrl, jsOrString, hmc, hnec]
  rw [hmap]
  exact List.filter_eq_self.mpr fun c hc => by simp [hne c hc]

/-- Generated-image analogue of `hydrate_strip_refs`. -/
theorem hydrate_strip_gens (m : ImageMap) (l : List GeneratedImage)
    (hm : ∀ g ∈ l, m g.id = some g.dataUrl) (hne : ∀ g ∈ l, g.dataUrl ≠ "") :
    hydrateGenList m (l.map stripGen) = l := by
  unfold hydrateGenList
  rw [List.map_map]
  have hmap : l.map
      ((fun img : GeneratedImage =>
        { img with dataUrl := hydratedDataUrl m img.id img.dataUrl }) ∘ stripGen) = l := by
    refine (List.map_congr_left ?_).trans (List.map_id l)
    intro g hg
    obtain ⟨gid, gpid, gprompt, gurl, gmime, gset, gcreated, gparent, gmask, gbatch⟩ := g
    have hmg : m gid = some gurl := hm _ hg
    have hneg : gurl ≠ "" := hne _ hg
    simp [stripGen, hydratedDataUrl, jsOrString, hmg, hneg]
  rw [hmap]
  exact List.filter_eq_self.mpr fun g hg => by simp [hne g hg]

/-- Strip-then-hydrate restores a project list whose entity payloads are
non-empty and present in the map. -/
theorem hydrate_strip_projects (m : ImageMap) (l : List Project)
    (hmr : ∀ p ∈ l, ∀ r ∈ p.referenceImages, m r.id = some r.dataUrl)
    (hmc : ∀ p ∈ l, ∀ c ∈ p.characters, m c.id = some c.dataUrl)
    (hner : ∀ p ∈ l, ∀ r ∈ p.referenceImages, r.dataUrl ≠ "")
    (hnec : ∀ p ∈ l, ∀ c ∈ p.characters, c.dataUrl ≠ "") :
    (l.map stripProject).map (hydrateProject m) = l := by
  rw [List.map_map]
  refine (List.map_congr_left ?_).trans (List.map_id l)
  intro p hp
  obtain ⟨pid, pname, pdesc, pstyle, prefs, pchars, pc, pu⟩ := p
  show hydrateProject m (stripProject ⟨pid, pname, pdesc, pstyle, prefs, pchars, pc, pu⟩)
    = ⟨pid, pname, pdesc, pstyle, prefs, pchars, pc, pu⟩
  unfold stripProject hydrateProject
  simp only [Project.mk.injEq, true_and, and_true]
  exact ⟨hydrate_strip_refs m prefs (hmr _ hp) (hner _ hp),
    hydrate_strip_chars m pchars (hmc _ hp) (hnec _ hp)⟩

/-- C2 (amended): the saved metadata document carries only empty payloads;
and — provided every entity payload of the state is non-empty — composing
save, load and the hydration transition against a map holding the original
payloads under the entity ids restores every project and generated image
exactly. -/
theorem save_load_hydrate_roundtrip (now : Nat) (s : AppState) (m : ImageMap)
    (hmr : ∀ r ∈ allReferenceImages s, m r.id = some r.dataUrl)
    (hmc : ∀ c ∈ allCharacters s, m c.id = some c.dataUrl)
    (hmg : ∀ g ∈ s.generatedImages, m g.id = some g.dataUrl)
    (hner : ∀ r ∈ allReferenceImages s, r.dataUrl ≠ "")
    (hnec : ∀ c ∈ allCharacters s, c.dataUrl ≠ "")
    (hneg : ∀ g ∈ s.generatedImages, g.dataUrl ≠ "") :
    (∀ p ∈ (saveState s).projects.getD [],
      (∀ r ∈ p.referenceImages, r.dataUrl = "") ∧ ∀ c ∈ p.characters, c.dataUrl = "") ∧
    (∀ g ∈ (saveState s).generatedImages.getD [], g.dataUrl = "") ∧
    (reducer now (getInitialState (saveState s))
      (.hydrateImageBlobs m)).projects = s.projects ∧
    (reducer now (getInitialState (saveState s))
      (.hydrateImageBlobs m)).generatedImages = s.generatedImages := by
  have hempty := loaded_payloads_empty s
  refine ⟨?_, ?_, ?_, ?_⟩
  · intro p hp
    exact hempty.1 p (by simpa [getInitialState] using hp)
  · intro g hg
    exact hempty.2 g (by simpa [getInitialState] using hg)
  · show ((getInitialState (saveState s)).projects.map (hydrateProject m)) = s.projects
    simp only [getInitialState, saveState, Option.getD_some]
    exact hydrate_strip_projects m s.projects
      (fun p hp r hr => hmr r (List.mem_flatMap.mpr ⟨p, hp, hr⟩))
      (fun p hp c hc => hmc c (List.mem_flatMap.mpr ⟨p, hp, hc⟩))
      (fun p hp r hr => hner r (List.mem_flatMap.mpr ⟨p, hp, hr⟩))
      (fun p hp c hc => hnec c (List.mem_flatMap.mpr ⟨p, hp, hc⟩))
  · show hydrateGenList m (getInitialState (saveState s)).generatedImages
      = s.generatedImages
    simp only [getInitialState, saveState, Option.getD_some]
    exact hydrate_strip_gens m s.generatedImages hmg hneg

/-- Generated image with an empty payload, exposing the failure of the
round-trip claim on empty original payloads. -/
def imgEmptyPayload : GeneratedImage :=
  { id := "ge", projectId := "a", prompt := "p"
    dataUrl := "", mimeType := "image/png"
    settings := DEFAULT_SETTINGS, createdAt := 0
    parentImageId := none, maskDataUrl := none, batchId := none }

/-- State holding one generated image whose payload is the empty string. -/
def stateEmptyPayload : AppState :=
  { apiKey := "k", modelId := "gemini-2.5-flash-image"
    projects := [], activeProjectId := none
    generatedImages := [imgEmptyPayload], generationQueue := []
    defaultSettings := DEFAULT_SETTINGS, selectedImageId := none
    view := .generate, hydrated := true }

/-- Counterexample to C2 as stated: for a state holding a generated image
whose original payload is the empty string, a blob map containing the
original payloads keyed by entity id exists (mapping every id to `""`),
yet save, load and hydration against it drop the entity instead of
restoring it — the composed result differs from the original state. -/
theorem save_load_hydrate_roundtrip_counterexample :
    (∀ g ∈ stateEmptyPayload.generatedImages,
      (fun _ => some "") g.id = some g.dataUrl) ∧
    (reducer 0 (getInitialState (saveState stateEmptyPayload))
      (.hydrateImageBlobs (fun _ => some ""))).generatedImages
      ≠ stateEmptyPayload.generatedImages := by
  constructor
  · intro g hg
    simp only [stateEmptyPayload, List.mem_singleton] at hg
    subst hg
    rfl
  · decide

/-- Sample reference image with a non-empty payload. -/
def refR : ReferenceImage :=
  { id := "r1", name := "ref.jpg"
    dataUrl := "data:image/jpeg;base64,RRRR", mimeType := "image/jpeg" }

/-- Sample character with a non-empty payload. -/
def charR : Character :=
  { id := "c1", label := "Character 1", name := "char.png"
    dataUrl := "data:image/png;base64,CCCC", mimeType := "image/png" }

/-- Sample project holding one reference image and one character. -/
def projR : Project :=
  { id := "p1", name := "P", description := "d", stylePrompt := "s"
    referenceImages := [refR], characters := [charR], createdAt := 0, updatedAt := 0 }

/-- State with one project carrying a reference image and a character, and
one generated image, all payloads non-empty. -/
def sampleStateRich : AppState :=
  { apiKey := "k", modelId := "gemini-2.5-flash-image"
    projects := [projR], activeProjectId := some "p1"
    generatedImages := [imgA], generationQueue := []
    defaultSettings := DEFAULT_SETTINGS, selectedImageId := none
    view := .generate, hydrated := true }

/-- Blob map carrying exactly the payloads of `sampleStateRich`, keyed by
entity id. -/
def sampleRichMap : ImageMap := fun id =>
  if id = "r1" then some refR.dataUrl
  else if id = "c1" then some charR.dataUrl
  else if id = "ga" then some imgA.dataUrl
  else none

/-- Witness for C2 at a state with one reference image, one character and
one generated image, all with non-empty payloads. -/
theorem save_load_hydrate_roundtrip_witness :
    (reducer 0 (getInitialState (saveState sampleStateRich))
      (.hydrateImageBlobs sampleRichMap)).projects = sampleStateRich.projects ∧
    (reducer 0 (getInitialState (saveState sampleStateRich))
      (.hydrateImageBlobs sampleRichMap)).generatedImages
      = sampleStateRich.generatedImages := by
  have h := save_load_hydrate_roundtrip 0 sampleStateRich sampleRichMap
    (by decide) (by decide) (by decide) (by decide) (by decide) (by decide)
  exact ⟨h.2.2.1, h.2.2.2⟩

-- ---- C6: request content-part construction (`gemini.ts` buildParts) ----

/-- One content part of a generation request (`GeminiPart` in `gemini.ts`):
either a text part or an inline image-data part. -/
inductive GeminiPart where
  | text (text : String)
  | inlineData (mimeType data : String)
deriving DecidableEq, Repr

/-- Everything after the first comma of a data URL
(`dataUrl.indexOf(','); idx >= 0 ? dataUrl.substring(idx + 1) : dataUrl`);
this embeds the data-URL-stripping helper of `gemini.ts`. -/
def stripDataUrlHead (dataUrl : String) : String :=
  match dataUrl.splitOn "," with
  | [] => dataUrl
  | [_] => dataUrl
  | _ :: rest => String.intercalate "," rest

/-- Mime extraction `dataUrl.match(/^data:([^;]+);/)` with fallback
`image/png`: the string must start with `data:` and carry a non-empty
semicolon-free run before the next `;`. -/
def getMimeFromDataUrl (dataUrl : String) : String :=
  if dataUrl.startsWith "data:" then
    match (dataUrl.drop 5).splitOn ";" with
    | m :: _ :: _ => if m = "" then "image/png" else m
    | _ => "image/png"
  else "image/png"

/-- The STYLE_PRESET_PROMPTS table of `gemini.ts`. -/
def STYLE_PRESET_PROMPTS (preset : String) : Option String :=
  if preset = "photorealistic" then
    some "Professional photorealistic style with studio lighting, high detail, sharp focus, and realistic textures"
  else if preset = "illustration" then
    some "Hand-drawn or digital illustration style with artistic interpretation and creative expression"
  else if preset = "graphic-design" then
    some "Modern graphic design aesthetic with clean lines, bold colors, and professional layout"
  else if preset = "casual-startup" then
    some "Relaxed and approachable style with casual vibes, friendly aesthetics, and startup energy"
  else if preset = "artistic" then
    some "Creative and expressive artistic interpretation with unique style and artistic flair"
  else none

/-- Modelled from the spec: the optional trailing mask content part.  The
repository's latest `gemini.ts` — whose `generateImage` takes a mask
argument between the source image and the abort signal, as both
`GenerationPanel` and `EditPanel` call it with eight arguments — is not
among the source files; only older versions without the mask parameter
are.  Per the spec (§6) the request part list ends with "optionally one
mask part" when a mask payload is supplied. -/
def maskParts (maskDataUrl : Option String) : List GeminiPart :=
  match maskDataUrl with
  | some mask =>
      [GeminiPart.inlineData (getMimeFromDataUrl mask) (stripDataUrlHead mask)]
  | none => []

/-- The `buildParts` function of `gemini.ts`: the accumulated prompt text
(style-preset text when the preset is set and found, project style, project
description, character labels, then the user prompt), followed by inline
parts for reference images, characters, the optional source image, and —
modelled from the spec, see `maskParts` — the optional mask. -/
def buildParts (prompt : String) (project : Project) (settings : GenerationSettings)
    (sourceImage : Option GeneratedImage) (maskDataUrl : Option String) :
    List GeminiPart :=
  GeminiPart.text
      ((if settings.stylePreset ≠ "none" then
          match STYLE_PRESET_PROMPTS settings.stylePreset with
          | some txt => if txt = "" then "" else txt ++ "\n\n"
          | none => ""
        else "")
        ++ (if project.stylePrompt ≠ "" then "Style: " ++ project.stylePrompt ++ "\n\n"
            else "")
        ++ (if project.description ≠ "" then "Context: " ++ project.description ++ "\n\n"
            else "")
        ++ (if project.characters.length > 0 then
              "Character" ++ (if project.characters.length > 1 then "s" else "") ++ ": "
                ++ String.intercalate ", " (project.characters.map Character.label)
                ++ "\n\n"
            else "")
        ++ prompt)
    :: ((project.referenceImages.map fun ref =>
          GeminiPart.inlineData ref.mimeType (stripDataUrlHead ref.dataUrl))
      ++ (project.characters.map fun c =>
          GeminiPart.inlineData c.mimeType (stripDataUrlHead c.dataUrl))
      ++ (match sourceImage with
          | some src =>
              [GeminiPart.inlineData
                (jsOrString (some src.mimeType) (getMimeFromDataUrl src.dataUrl))
                (stripDataUrlHead src.dataUrl)]
          | none => [])
      ++ maskParts maskDataUrl)

-- Spec-side decomposition of the request parts, following the wording of
-- the external-interface section: named segments, concatenated in the
-- fixed order the spec gives.

/-- Style-preset contribution to the prompt text. -/
def stylePresetText (settings : GenerationSettings) : String :=
  if settings.stylePreset ≠ "none" then
    match STYLE_PRESET_PROMPTS settings.stylePreset with
    | some txt => if txt = "" then "" else txt ++ "\n\n"
    | none => ""
  else ""

/-- Project-style contribution to the prompt text. -/
def projectStyleText (project : Project) : String :=
  if project.stylePrompt ≠ "" then "Style: " ++ project.stylePrompt ++ "\n\n" else ""

/-- Project-description contribution to the prompt text. -/
def projectDescriptionText (project : Project) : String :=
  if project.description ≠ "" then "Context: " ++ project.description ++ "\n\n" else ""

/-- Character-labels contribution to the prompt text. -/
def characterLabelsText (project : Project) : String :=
  if project.characters.length > 0 then
    "Character" ++ (if project.characters.length > 1 then "s" else "") ++ ": "
      ++ String.intercalate ", " (project.characters.map Character.label) ++ "\n\n"
  else ""

/-- One inline part per reference image. -/
def referenceImageParts (project : Project) : List GeminiPart :=
  project.referenceImages.map fun ref =>
    GeminiPart.inlineData ref.mimeType (stripDataUrlHead ref.dataUrl)

/-- One inline part per character image. -/
def characterImageParts (project : Project) : List GeminiPart :=
  project.characters.map fun c =>
    GeminiPart.inlineData c.mimeType (stripDataUrlHead c.dataUrl)

/-- The optional source-image part (edit mode). -/
def sourceImageParts (sourceImage : Option GeneratedImage) : List GeminiPart :=
  match sourceImage with
  | some src =>
      [GeminiPart.inlineData
        (jsOrString (some src.mimeType) (getMimeFromDataUrl src.dataUrl))
        (stripDataUrlHead src.dataUrl)]
  | none => []

/-- The request content-part list as the spec words it: one text part
concatenating the style-preset text, the project style, the project
description, the character labels and the user prompt in that fixed order;
then the reference-image parts, the character parts, optionally one
source-image part, and optionally one mask part. -/
def specContentParts (prompt : String) (project : Project)
    (settings : GenerationSettings) (sourceImage : Option GeneratedImage)
    (maskDataUrl : Option String) : List GeminiPart :=
  [GeminiPart.text
      (stylePresetText settings ++ projectStyleText project
        ++ projectDescriptionText project ++ characterLabelsText project ++ prompt)]
    ++ referenceImageParts project
    ++ characterImageParts project
    ++ sourceImageParts sourceImage
    ++ maskParts maskDataUrl

/-- C6: the part list built for every generation request is exactly the
spec-ordered decomposition — text first (with the five text pieces in the
fixed order), then reference images, characters, the optional source image
and the optional mask. -/
theorem buildParts_spec_order (prompt : String) (project : Project)
    (settings : GenerationSettings) (sourceImage : Option GeneratedImage)
    (maskDataUrl : Option String) :
    buildParts prompt project settings sourceImage maskDataUrl
      = specContentParts prompt project settings sourceImage maskDataUrl := by
  unfold buildParts specContentParts stylePresetText projectStyleText
    projectDescriptionText characterLabelsText referenceImageParts
    characterImageParts sourceImageParts
  simp [List.append_assoc]

-- ---- C10: upload caps (`ProjectSettings.tsx`) ----

/-- MAX_REFERENCES constant of `ProjectSettings.tsx`. -/
def MAX_REFERENCES : Nat := 20

/-- MAX_CHARACTERS constant of `ProjectSettings.tsx`. -/
def MAX_CHARACTERS : Nat := 20

/-- JavaScript `array.slice(0, stop)`: a negative `stop` counts from the
end (clamped at zero), a `stop` beyond the length takes everything. -/
def jsSliceTo {α : Type} (xs : List α) (stop : Int) : List α :=
  xs.take (if stop < 0 then ((xs.length : Int) + stop).toNat else stop.toNat)

/-- Result of compressing one selected file (`imageUtils.ts`). -/
structure CompressedImage where
  dataUrl : String
  mimeType : String
  name : String
deriving DecidableEq, Repr

/-- The `compressImages` helper: files are processed in order and files
whose compression fails are skipped; the outcome per file is abstracted as
`compress`. -/
def compressImages {α : Type} (compress : α → Option CompressedImage)
    (files : List α) : List CompressedImage :=
  files.filterMap compress

/-- The reference images produced by `handleImageUpload`: the selected
files are the first `MAX_REFERENCES - referenceImages.length` of the
chosen ones, compressed, then wrapped with fresh ids (`idGen` abstracts
`uuid()`). -/
def handleImageUploadImages {α : Type} (idGen : Nat → String)
    (compress : α → Option CompressedImage) (project : Project)
    (files : List α) : List ReferenceImage :=
  let remaining : Int := (MAX_REFERENCES : Int) - (project.referenceImages.length : Int)
  let selected := jsSliceTo files remaining
  let compressed := compressImages compress selected
  compressed.mapIdx fun i c =>
    { id := idGen i, name := c.name, dataUrl := c.dataUrl, mimeType := c.mimeType }

/-- The characters produced by `handleCharacterUpload`, with the default
label `Character (count + index + 1)`. -/
def handleCharacterUploadCharacters {α : Type} (idGen : Nat → String)
    (compress : α → Option CompressedImage) (project : Project)
    (files : List α) : List Character :=
  let charactersRemaining : Int :=
    (MAX_CHARACTERS : Int) - (project.characters.length : Int)
  let selected := jsSliceTo files charactersRemaining
  let compressed := compressImages compress selected
  compressed.mapIdx fun i c =>
    { id := idGen i
      label := "Character " ++ toString (project.characters.length + i + 1)
      name := c.name, dataUrl := c.dataUrl, mimeType := c.mimeType }

/-- Length bound for a slice by a remaining-capacity bound. -/
theorem jsSliceTo_length_le {α : Type} (xs : List α) (cap count : Nat)
    (h : count ≤ cap) :
    (jsSliceTo xs ((cap : Int) - (count : Int))).length ≤ cap - count := by
  unfold jsSliceTo
  have hnonneg : ¬ ((cap : Int) - (count : Int) < 0) := by
    omega
  rw [if_neg hnonneg]
  have : ((cap : Int) - (count : Int)).toNat = cap - count := Int.toNat_sub cap count
  rw [this]
  exact (List.length_take _ _).trans_le (min_le_left _ _)

/-- C10: when a project's collections are within the 20-entry caps, each
upload handler produces at most `cap - current count` new entries, so the
batched ADD leaves the project's reference-image and character collections
at no more than 20 entries. -/
theorem upload_respects_caps {α : Type} (idGen idGen2 : Nat → String)
    (compress compress2 : α → Option CompressedImage) (now : Nat) (s : AppState)
    (p : Project) (files charFiles : List α)
    (hp : p ∈ s.projects)
    (hr : p.referenceImages.length ≤ MAX_REFERENCES)
    (hc : p.characters.length ≤ MAX_CHARACTERS) :
    (handleImageUploadImages idGen compress p files).length
        ≤ MAX_REFERENCES - p.referenceImages.length ∧
    p.referenceImages.length + (handleImageUploadImages idGen compress p files).length
        ≤ MAX_REFERENCES ∧
    (∃ q ∈ (reducer now s (.addReferenceImagesBatch p.id
          (handleImageUploadImages idGen compress p files))).projects,
        q.referenceImages
          = p.referenceImages ++ handleImageUploadImages idGen compress p files ∧
        q.referenceImages.length ≤ MAX_REFERENCES) ∧
    (handleCharacterUploadCharacters idGen2 compress2 p charFiles).length
        ≤ MAX_CHARACTERS - p.characters.length ∧
    p.characters.length + (handleCharacterUploadCharacters idGen2 compress2 p charFiles).length
        ≤ MAX_CHARACTERS ∧
    (∃ q ∈ (reducer now s (.addCharactersBatch p.id
          (handleCharacterUploadCharacters idGen2 compress2 p charFiles))).projects,
        q.characters
          = p.characters ++ handleCharacterUploadCharacters idGen2 compress2 p charFiles ∧
        q.characters.length ≤ MAX_CHARACTERS) := by
  have hlenR : (handleImageUploadImages idGen compress p files).length
      ≤ MAX_REFERENCES - p.referenceImages.length := by
    unfold handleImageUploadImages compressImages
    rw [List.length_mapIdx]
    exact (List.length_filterMap_le _ _).trans
      (jsSliceTo_length_le files MAX_REFERENCES p.referenceImages.length hr)
  have hlenC : (handleCharacterUploadCharacters idGen2 compress2 p charFiles).length
      ≤ MAX_CHARACTERS - p.characters.length := by
    unfold handleCharacterUploadCharacters compressImages
    rw [List.length_mapIdx]
    exact (List.length_filterMap_le _ _).trans
      (jsSliceTo_length_le charFiles MAX_CHARACTERS p.characters.length hc)
  have hsumR : p.referenceImages.length
      + (handleImageUploadImages idGen compress p files).length ≤ MAX_REFERENCES := by
    omega
  have hsumC : p.characters.length
      + (handleCharacterUploadCharacters idGen2 compress2 p charFiles).length
      ≤ MAX_CHARACTERS := by
    omega
  refine ⟨hlenR, hsumR, ?_, hlenC, hsumC, ?_⟩
  · refine ⟨{ p with
        referenceImages := p.referenceImages ++ handleImageUploadImages idGen compress p files
        updatedAt := now }, ?_, rfl, ?_⟩
    · show _ ∈ s.projects.map _
      rw [List.mem_map]
      exact ⟨p, hp, by rw [if_pos rfl]⟩
    · simpa using hsumR
  · refine ⟨{ p with
        characters := p.characters ++ handleCharacterUploadCharacters idGen2 compress2 p charFiles
        updatedAt := now }, ?_, rfl, ?_⟩
    · show _ ∈ s.projects.map _
      rw [List.mem_map]
      exact ⟨p, hp, by rw [if_pos rfl]⟩
    · simpa using hsumC

/-- Sample file names for the upload witness. -/
def wFiles : List String := (List.range 25).map toString

/-- Sample compression outcome: every file compresses successfully. -/
def wCompress : String → Option CompressedImage := fun nm =>
  some { dataUrl := "data:image/jpeg;base64,QQ", mimeType := "image/jpeg", name := nm }

/-- Sample id supply standing in for `uuid()`. -/
def wIdGen : Nat → String := fun i => "uuid-" ++ toString i

/-- Witness for C10: uploading 25 files to a project with one reference
image and one character stays within both caps. -/
theorem upload_respects_caps_witness :
    (handleImageUploadImages wIdGen wCompress projR wFiles).length
        ≤ MAX_REFERENCES - projR.referenceImages.length ∧
    projR.referenceImages.length
        + (handleImageUploadImages wIdGen wCompress projR wFiles).length
        ≤ MAX_REFERENCES ∧
    projR.characters.length
        + (handleCharacterUploadCharacters wIdGen wCompress projR wFiles).length
        ≤ MAX_CHARACTERS := by
  have h := upload_respects_caps wIdGen wIdGen wCompress wCompress 0 sampleStateRich
    projR wFiles wFiles (by decide) (by decide) (by decide)
  exact ⟨h.1, h.2.1, h.2.2.2.2.1⟩

-- ---- C4 and C5: the generation orchestration (`GenerationPanel`,
-- `EditPanel`).  One attempt is a straight-line async function; its
-- externally visible steps (store dispatches, the blob write, the API
-- call) are embedded as an ordered event list. ----

/-- Observable step of one generation attempt. -/
inductive GenEvent where
  | dispatch (a : Action)
  | saveBlob (id dataUrl : String)
  | apiCall

/-- Patch `{ id: reqId, status: 'generating' }` dispatched right before the
API call. -/
def generatingPatch (reqId : String) : RequestPatch :=
  { id := reqId, status := some .generating }

/-- Patch `{ id: reqId, status: 'completed', result }`. -/
def completedPatch (reqId : String) (img : GeneratedImage) : RequestPatch :=
  { id := reqId, status := some .completed, result := some img }

/-- Patch `{ id: reqId, status: 'error', error }`. -/
def errorPatch (reqId message : String) : RequestPatch :=
  { id := reqId, status := some .error, error := some message }

/-- Resolution of one attempt: the API call succeeds with an image, fails
with a message, or is aborted by cancellation. -/
inductive AttemptOutcome where
  | success (img : GeneratedImage)
  | failure (message : String)
  | cancelled
deriving DecidableEq

/-- The `{ ...result, batchId }` spread of `GenerationPanel`. -/
def withBatchId (img : GeneratedImage) (batchId : String) : GeneratedImage :=
  { img with batchId := some batchId }

/-- Event trace of one attempt of `GenerationPanel.startGeneration`, in the
order the source executes them: dispatch `generating`, await
`generateImage`, then on success await `saveImageBlob`, dispatch
ADD_GENERATED_IMAGE and dispatch the `completed` update; on failure
dispatch the `error` update; on cancellation (AbortError) return without
further dispatches. -/
def attemptEvents (batchId reqId : String) : AttemptOutcome → List GenEvent
  | .success img =>
      [.dispatch (.updateGenerationRequest (generatingPatch reqId)),
       .apiCall,
       .saveBlob (withBatchId img batchId).id (withBatchId img batchId).dataUrl,
       .dispatch (.addGeneratedImage (withBatchId img batchId)),
       .dispatch (.updateGenerationRequest (completedPatch reqId (withBatchId img batchId)))]
  | .failure message =>
      [.dispatch (.updateGenerationRequest (generatingPatch reqId)),
       .apiCall,
       .dispatch (.updateGenerationRequest (errorPatch reqId message))]
  | .cancelled =>
      [.dispatch (.updateGenerationRequest (generatingPatch reqId)),
       .apiCall]

/-- Event trace of the success path of one attempt of
`EditPanel.handleEdit`: await `generateImage`, await `saveImageBlob`, then
dispatch ADD_GENERATED_IMAGE (the edit panel keeps no queue entry). -/
def editSuccessEvents (img : GeneratedImage) : List GenEvent :=
  [.apiCall, .saveBlob img.id img.dataUrl, .dispatch (.addGeneratedImage img)]

/-- Recognizer for blob-write events. -/
def isSaveBlobEvent : GenEvent → Bool
  | .saveBlob _ _ => true
  | _ => false

/-- Recognizer for ADD_GENERATED_IMAGE dispatches. -/
def isAddImageEvent : GenEvent → Bool
  | .dispatch (.addGeneratedImage _) => true
  | _ => false

/-- Recognizer for dispatches that set a request status to `completed`. -/
def isCompletedUpdateEvent : GenEvent → Bool
  | .dispatch (.updateGenerationRequest patch) =>
      match patch.status with
      | some .completed => true
      | _ => false
  | _ => false

/-- Index of the first event satisfying a recognizer. -/
def eventIdx (p : GenEvent → Bool) : List GenEvent → Option Nat
  | [] => none
  | e :: t =>
      match p e with
      | true => some 0
      | false => (eventIdx p t).map (· + 1)

/-- Number of events satisfying a recognizer. -/
def eventCount (p : GenEvent → Bool) : List GenEvent → Nat
  | [] => 0
  | e :: t => (match p e with | true => 1 | false => 0) + eventCount p t

/-- C4: on the success path of an attempt, the single blob write strictly
precedes the single ADD_GENERATED_IMAGE dispatch, which strictly precedes
the single `completed` status update — so the request reaches `completed`
only after the payload was written and the image announced; the edit
panel's success path likewise writes the blob strictly before announcing
the image. -/
theorem blob_write_precedes_announcement (batchId reqId : String)
    (img : GeneratedImage) :
    (∃ i j k : Nat, i < j ∧ j < k ∧
      eventIdx isSaveBlobEvent (attemptEvents batchId reqId (.success img)) = some i ∧
      eventIdx isAddImageEvent (attemptEvents batchId reqId (.success img)) = some j ∧
      eventIdx isCompletedUpdateEvent (attemptEvents batchId reqId (.success img))
        = some k) ∧
    eventCount isSaveBlobEvent (attemptEvents batchId reqId (.success img)) = 1 ∧
    eventCount isAddImageEvent (attemptEvents batchId reqId (.success img)) = 1 ∧
    eventCount isCompletedUpdateEvent (attemptEvents batchId reqId (.success img)) = 1 ∧
    (∃ i j : Nat, i < j ∧
      eventIdx isSaveBlobEvent (editSuccessEvents img) = some i ∧
      eventIdx isAddImageEvent (editSuccessEvents img) = some j) :=
  ⟨⟨2, 3, 4, by omega, by omega, rfl, rfl, rfl⟩, rfl, rfl, rfl,
    ⟨1, 2, by omega, rfl, rfl⟩⟩

-- ---- C5: batch generation resolves every queue entry ----

/-- The store dispatches of one attempt, i.e. the `dispatch` events of its
trace (see `attemptActions_eq_dispatches`). -/
def attemptActions (batchId reqId : String) : AttemptOutcome → List Action
  | .success img =>
      [.updateGenerationRequest (generatingPatch reqId),
       .addGeneratedImage (withBatchId img batchId),
       .updateGenerationRequest (completedPatch reqId (withBatchId img batchId))]
  | .failure message =>
      [.updateGenerationRequest (generatingPatch reqId),
       .updateGenerationRequest (errorPatch reqId message)]
  | .cancelled =>
      [.updateGenerationRequest (generatingPatch reqId)]

/-- The attempt actions are exactly the dispatches of the attempt trace. -/
theorem attemptActions_eq_dispatches (batchId reqId : String) (o : AttemptOutcome) :
    attemptActions batchId reqId o
      = (attemptEvents batchId reqId o).filterMap fun e =>
          match e with
          | .dispatch a => some a
          | _ => none := by
  cases o <;> rfl

/-- The request entry created in `pending` state for each attempt. -/
def mkGenerationRequest (reqId projectId prompt : String)
    (settings : GenerationSettings) (startedAt : Nat) : GenerationRequest :=
  { id := reqId, projectId := projectId, prompt := prompt, status := .pending
    result := none, error := none, settings := settings, startedAt := startedAt }

/-- The `count` ADD_GENERATION_REQUEST dispatches issued up front by
`startGeneration`, one per request id. -/
def creationActions (projectId prompt : String) (settings : GenerationSettings)
    (startedAt : Nat) (reqIds : List String) : List Action :=
  reqIds.map fun reqId =>
    .addGenerationRequest (mkGenerationRequest reqId projectId prompt settings startedAt)

/-- Dispatch of a list of actions through the reducer, in order. -/
def applyActions (now : Nat) (s : AppState) (acts : List Action) : AppState :=
  acts.foldl (reducer now) s

/-- One action trace per attempt, pairing request ids with outcomes. -/
def attemptTraces (batchId : String) (reqIds : List String)
    (outcomes : List AttemptOutcome) : List (List Action) :=
  (reqIds.zip outcomes).map fun ro => attemptActions batchId ro.1 ro.2

/-- One interleaved execution of the attempt traces: the schedule picks, at
each step, which attempt dispatches its next action; picks of exhausted or
out-of-range attempts are skipped.  Each attempt's own actions stay in
program order; the interleaving across attempts is arbitrary. -/
def runSched : List (List Action) → List Nat → List Action
  | _, [] => []
  | traces, i :: rest =>
      match traces[i]? with
      | some (a :: t) => a :: runSched (traces.set i t) rest
      | _ => runSched traces rest

/-- A schedule resolves every attempt when, after running it, every trace
is exhausted. -/
def schedCompletes : List (List Action) → List Nat → Bool
  | traces, [] => traces.all List.isEmpty
  | traces, i :: rest =>
      match traces[i]? with
      | some (_ :: t) => schedCompletes (traces.set i t) rest
      | _ => schedCompletes traces rest

/-- Actions an attempt may dispatch after creation: request updates and
generated-image additions. -/
def isAttemptAction : Action → Bool
  | .updateGenerationRequest _ => true
  | .addGeneratedImage _ => true
  | _ => false

/-- Effect of one action on one queue entry. -/
def stepRequest (r : GenerationRequest) : Action → GenerationRequest
  | .updateGenerationRequest patch =>
      if r.id = patch.id then applyRequestPatch r patch else r
  | _ => r

/-- Whether an action updates the queue entry with the given id. -/
def actionTargets (rid : String) : Action → Bool
  | .updateGenerationRequest patch => decide (rid = patch.id)
  | _ => false

/-- A queue entry keeps its id under any action. -/
theorem stepRequest_id (r : GenerationRequest) (a : Action) :
    (stepRequest r a).id = r.id := by
  cases a <;> try rfl
  case updateGenerationRequest patch =>
    show (if r.id = patch.id then applyRequestPatch r patch else r).id = r.id
    by_cases h : r.id = patch.id
    · rw [if_pos h]
      show patch.id = r.id
      exact h.symm
    · rw [if_neg h]

/-- An action not targeting an entry leaves it unchanged. -/
theorem stepRequest_skip (r : GenerationRequest) (a : Action)
    (h : actionTargets r.id a = false) : stepRequest r a = r := by
  cases a <;> try rfl
  case updateGenerationRequest patch =>
    unfold actionTargets at h
    simp only [decide_eq_false_iff_not] at h
    unfold stepRequest
    exact if_neg h

/-- Folding attempt actions over the state maps each queue entry through
`stepRequest` pointwise: request updates rewrite matching entries and
image additions leave the queue alone. -/
theorem queue_foldl (now : Nat) : ∀ (acts : List Action) (s : AppState),
    (∀ a ∈ acts, isAttemptAction a = true) →
    (applyActions now s acts).generationQueue
      = s.generationQueue.map fun r => acts.foldl stepRequest r := by
  intro acts
  induction acts with
  | nil =>
    intro s _
    simp [applyActions]
  | cons a t ih =>
    intro s h
    have ha := h a (List.mem_cons_self _ _)
    have ht := fun x hx => h x (List.mem_cons_of_mem _ hx)
    show (applyActions now (reducer now s a) t).generationQueue = _
    rw [ih (reducer now s a) ht]
    have hq : (reducer now s a).generationQueue
        = s.generationQueue.map fun r => stepRequest r a := by
      cases a <;> simp [isAttemptAction] at ha <;> simp [reducer, stepRequest]
    rw [hq, List.map_map]
    apply List.map_congr_left
    intro r _
    rfl

/-- Folding over a trace only depends on the actions targeting the entry. -/
theorem foldl_stepRequest_filter : ∀ (acts : List Action) (r : GenerationRequest),
    acts.foldl stepRequest r = (acts.filter (actionTargets r.id)).foldl stepRequest r := by
  intro acts
  induction acts with
  | nil =>
    intro r
    rfl
  | cons a t ih =>
    intro r
    rw [List.filter_cons]
    cases hta : actionTargets r.id a with
    | true =>
      simp only [hta, if_true]
      show t.foldl stepRequest (stepRequest r a) = _
      rw [ih (stepRequest r a), stepRequest_id]
      rfl
    | false =>
      simp only [hta, Bool.false_eq_true, if_false]
      show t.foldl stepRequest (stepRequest r a) = _
      rw [stepRequest_skip r a hta, ih r]

/-- Every action emitted by a schedule run comes from one of the traces. -/
theorem runSched_mem (P : Action → Prop) : ∀ (sched : List Nat)
    (traces : List (List Action)),
    (∀ t ∈ traces, ∀ a ∈ t, P a) → ∀ a ∈ runSched traces sched, P a := by
  intro sched
  induction sched with
  | nil =>
    intro traces _ a ha
    simp [runSched] at ha
  | cons i rest ih =>
    intro traces h a ha
    unfold runSched at ha
    cases hti : traces[i]? with
    | none =>
      rw [hti] at ha
      exact ih traces h a ha
    | some ti =>
      cases ti with
      | nil =>
        rw [hti] at ha
        exact ih traces h a ha
      | cons b t =>
        rw [hti] at ha
        have hbt : (b :: t) ∈ traces := by
          obtain ⟨hlt, he⟩ := List.getElem?_eq_some.mp hti
          exact he ▸ List.getElem_mem hlt
        rcases List.mem_cons.mp ha with rfl | ha'
        · exact h _ hbt _ (List.mem_cons_self _ _)
        · refine ih (traces.set i t) ?_ a ha'
          intro t' ht' x hx
          rcases List.mem_or_eq_of_mem_set ht' with h1 | rfl
          · exact h t' h1 x hx
          · exact h _ hbt x (List.mem_cons_of_mem _ hx)

/-- When every trace other than the one at position `i` has no action
satisfying `p`, filtering a completed schedule run by `p` yields exactly
the `p`-actions of trace `i`, in program order. -/
theorem runSched_filter_single (p : Action → Bool) : ∀ (sched : List Nat)
    (traces : List (List Action)) (i : Nat) (ti : List Action),
    schedCompletes traces sched = true →
    traces[i]? = some ti →
    (∀ j tj, j ≠ i → traces[j]? = some tj → tj.filter p = []) →
    (runSched traces sched).filter p = ti.filter p := by
  intro sched
  induction sched with
  | nil =>
    intro traces i ti hc hi _
    unfold schedCompletes at hc
    rw [List.all_eq_true] at hc
    have hmem : ti ∈ traces := by
      obtain ⟨hlt, he⟩ := List.getElem?_eq_some.mp hi
      exact he ▸ List.getElem_mem hlt
    have : ti = [] := by
      have := hc ti hmem
      simpa [List.isEmpty_iff] using this
    subst this
    rfl
  | cons j rest ih =>
    intro traces i ti hc hi hothers
    unfold schedCompletes at hc
    unfold runSched
    cases htj : traces[j]? with
    | none =>
      rw [htj] at hc
      exact ih traces i ti hc hi hothers
    | some tj =>
      cases tj with
      | nil =>
        rw [htj] at hc
        exact ih traces i ti hc hi hothers
      | cons a tj' =>
        rw [htj] at hc
        have hj_lt : j < traces.length := (List.getElem?_eq_some.mp htj).1
        by_cases hji : j = i
        · subst hji
          have hti : ti = a :: tj' := by
            have := hi.symm.trans htj
            exact Option.some.inj this
          subst hti
          have hi' : (traces.set j tj')[j]? = some tj' := by
            simp [List.getElem?_set_self, hj_lt]
          have hothers' : ∀ k tk, k ≠ j → (traces.set j tj')[k]? = some tk →
              tk.filter p = [] := by
            intro k tk hk htk
            rw [List.getElem?_set_ne (fun h => hk h.symm)] at htk
            exact hothers k tk hk htk
          have hrec := ih (traces.set j tj') j tj' hc hi' hothers'
          rw [List.filter_cons, List.filter_cons]
          cases hpa : p a <;> simp [hpa, hrec]
        · have hfil : (a :: tj').filter p = [] := hothers j _ hji htj
          rw [List.filter_cons] at hfil
          cases hpa : p a with
          | true =>
            rw [hpa] at hfil
            simp at hfil
          | false =>
            rw [hpa] at hfil
            simp only [Bool.false_eq_true, if_false] at hfil
            have hi' : (traces.set j tj')[i]? = some ti := by
              rw [List.getElem?_set_ne hji]
              exact hi
            have hothers' : ∀ k tk, k ≠ i → (traces.set j tj')[k]? = some tk →
                tk.filter p = [] := by
              intro k tk hk htk
              by_cases hkj : k = j
              · subst hkj
                rw [List.getElem?_set_self hj_lt] at htk
                cases Option.some.inj htk
                exact hfil
              · rw [List.getElem?_set_ne (fun h => hkj h.symm)] at htk
                exact hothers k tk hk htk
            have hrec := ih (traces.set j tj') i ti hc hi' hothers'
            rw [List.filter_cons]
            simp [hpa, hrec]

/-- Attempt traces dispatch only request updates and image additions. -/
theorem attemptActions_benign (batchId reqId : String) (o : AttemptOutcome) :
    ∀ a ∈ attemptActions batchId reqId o, isAttemptAction a = true := by
  cases o <;>
    · intro a ha
      simp only [attemptActions, List.mem_cons, List.not_mem_nil, or_false] at ha
      rcases ha with rfl | rfl | rfl <;> rfl

/-- The actions of an attempt for another request id never target this
one. -/
theorem attemptActions_targets_off (batchId reqId rid : String)
    (o : AttemptOutcome) (h : rid ≠ reqId) :
    (attemptActions batchId reqId o).filter (actionTargets rid) = [] := by
  cases o <;>
    simp [attemptActions, actionTargets, generatingPatch, completedPatch,
      errorPatch, List.filter_cons, h]

/-- Folding an attempt's own actions over its pending entry ends in a
terminal status when the attempt was not cancelled. -/
theorem attempt_fold_terminal (batchId reqId : String) (o : AttemptOutcome)
    (ho : o ≠ .cancelled) (r0 : GenerationRequest) (h0 : r0.id = reqId) :
    (((attemptActions batchId reqId o).filter (actionTargets reqId)).foldl
        stepRequest r0).status ≠ .pending ∧
    (((attemptActions batchId reqId o).filter (actionTargets reqId)).foldl
        stepRequest r0).status ≠ .generating := by
  cases o with
  | success img =>
    simp [attemptActions, actionTargets, generatingPatch, completedPatch,
      List.filter_cons, stepRequest, applyRequestPatch, h0, Option.getD]
  | failure message =>
    simp [attemptActions, actionTargets, generatingPatch, errorPatch,
      List.filter_cons, stepRequest, applyRequestPatch, h0, Option.getD]
  | cancelled => exact absurd rfl ho

/-- The creation loop appends one pending entry per request id. -/
theorem creation_queue (now : Nat) (projectId prompt : String)
    (settings : GenerationSettings) (startedAt : Nat) :
    ∀ (reqIds : List String) (s : AppState),
    (applyActions now s (creationActions projectId prompt settings startedAt reqIds)).generationQueue
      = s.generationQueue
        ++ reqIds.map fun reqId =>
            mkGenerationRequest reqId projectId prompt settings startedAt := by
  intro reqIds
  induction reqIds with
  | nil =>
    intro s
    simp [applyActions, creationActions]
  | cons rid t ih =>
    intro s
    show (applyActions now
        (reducer now s (.addGenerationRequest
          (mkGenerationRequest rid projectId prompt settings startedAt)))
        (creationActions projectId prompt settings startedAt t)).generationQueue = _
    rw [ih]
    simp [reducer]

/-- C5: submitting a batch with `numberOfVariations` variations creates
exactly that many queue entries; and after every attempt resolves with
success or failure (no cancellation) — under any interleaving of the
attempts' dispatches — the queue contains no entry in `pending` or
`generating` state. -/
theorem batch_generation_resolves (now : Nat) (s0 : AppState)
    (projectId prompt batchId : String) (settings : GenerationSettings)
    (startedAt : Nat) (reqIds : List String) (outcomes : List AttemptOutcome)
    (sched : List Nat)
    (hq : s0.generationQueue = [])
    (hk : reqIds.length = settings.numberOfVariations)
    (hnodup : reqIds.Nodup)
    (hlen : outcomes.length = reqIds.length)
    (hnc : ∀ o ∈ outcomes, o ≠ AttemptOutcome.cancelled)
    (hsched : schedCompletes (attemptTraces batchId reqIds outcomes) sched = true) :
    (applyActions now s0
        (creationActions projectId prompt settings startedAt reqIds)).generationQueue.length
      = settings.numberOfVariations ∧
    ∀ r ∈ (applyActions now
        (applyActions now s0 (creationActions projectId prompt settings startedAt reqIds))
        (runSched (attemptTraces batchId reqIds outcomes) sched)).generationQueue,
      r.status ≠ .pending ∧ r.status ≠ .generating := by
  have hcq := creation_queue now projectId prompt settings startedAt reqIds s0
  constructor
  · rw [hcq, hq]
    simp [hk]
  · intro r hr
    have hben : ∀ a ∈ runSched (attemptTraces batchId reqIds outcomes) sched,
        isAttemptAction a = true := by
      refine runSched_mem (fun a => isAttemptAction a = true) sched
        (attemptTraces batchId reqIds outcomes) ?_
      intro t ht a ha
      simp only [attemptTraces, List.mem_map] at ht
      obtain ⟨⟨rid, o⟩, _, rfl⟩ := ht
      exact attemptActions_benign batchId rid o a ha
    rw [queue_foldl now _ _ hben, hcq, hq, List.nil_append, List.map_map] at hr
    rw [List.mem_map] at hr
    obtain ⟨rid, hrid, rfl⟩ := hr
    obtain ⟨iF, hiF⟩ := List.get_of_mem hrid
    have hgi : reqIds[(iF : Nat)]? = some rid := by simp [← hiF]
    have hi_lt : (iF : Nat) < reqIds.length := iF.isLt
    have hoi : ∃ o, outcomes[(iF : Nat)]? = some o := by
      have : (iF : Nat) < outcomes.length := by omega
      exact ⟨outcomes[(iF : Nat)], List.getElem?_eq_getElem this⟩
    obtain ⟨o, hoi⟩ := hoi
    have homem : o ∈ outcomes := by
      obtain ⟨hlt, he⟩ := List.getElem?_eq_some.mp hoi
      exact he ▸ List.getElem_mem hlt
    have hzip : (reqIds.zip outcomes)[(iF : Nat)]? = some (rid, o) := by
      rw [List.getElem?_zip_eq_some]
      exact ⟨hgi, hoi⟩
    have htrace : (attemptTraces batchId reqIds outcomes)[(iF : Nat)]?
        = some (attemptActions batchId rid o) := by
      simp [attemptTraces, List.getElem?_map, hzip]
    have hothers : ∀ j tj, j ≠ (iF : Nat) →
        (attemptTraces batchId reqIds outcomes)[j]? = some tj →
        tj.filter (actionTargets rid) = [] := by
      intro j tj hj htj
      simp only [attemptTraces, List.getElem?_map] at htj
      obtain ⟨⟨rid', o'⟩, hz, rfl⟩ := Option.map_eq_some'.mp htj
      have hgj : reqIds[j]? = some rid' := (List.getElem?_zip_eq_some.mp hz).1
      have hne : rid ≠ rid' := by
        intro he
        apply hj
        obtain ⟨hltj, hej⟩ := List.getElem?_eq_some.mp hgj
        obtain ⟨hlti, hei⟩ := List.getElem?_eq_some.mp hgi
        exact (List.Nodup.getElem_inj_iff hnodup).mp (hej.trans (he ▸ hei.symm))
      exact attemptActions_targets_off batchId rid' rid o' hne
    have heq : (runSched (attemptTraces batchId reqIds outcomes) sched).foldl stepRequest
        (mkGenerationRequest rid projectId prompt settings startedAt)
        = ((attemptActions batchId rid o).filter (actionTargets rid)).foldl stepRequest
          (mkGenerationRequest rid projectId prompt settings startedAt) := by
      rw [foldl_stepRequest_filter]
      rw [show (mkGenerationRequest rid projectId prompt settings startedAt).id = rid
        from rfl]
      rw [runSched_filter_single (actionTargets rid) sched
        (attemptTraces batchId reqIds outcomes) (iF : Nat)
        (attemptActions batchId rid o) hsched htrace hothers]
    show ((runSched (attemptTraces batchId reqIds outcomes) sched).foldl stepRequest
        (mkGenerationRequest rid projectId prompt settings startedAt)).status
          ≠ RequestStatus.pending ∧
      ((runSched (attemptTraces batchId reqIds outcomes) sched).foldl stepRequest
        (mkGenerationRequest rid projectId prompt settings startedAt)).status
          ≠ RequestStatus.generating
    rw [heq]
    exact attempt_fold_terminal batchId rid o (hnc o homem)
      (mkGenerationRequest rid projectId prompt settings startedAt) rfl

/-- Settings with two variations, for the batch witness. -/
def wSettings : GenerationSettings :=
  { DEFAULT_SETTINGS with numberOfVariations := 2 }

/-- Witness for C5: a two-variation batch (one success, one failure) under
a concrete alternating interleaving creates two queue entries and leaves
none pending or generating. -/
theorem batch_generation_resolves_witness :
    (applyActions 0 sampleStateAB
        (creationActions "a" "a cat" wSettings 0 ["r1", "r2"])).generationQueue.length
      = 2 ∧
    ∀ r ∈ (applyActions 0
        (applyActions 0 sampleStateAB (creationActions "a" "a cat" wSettings 0 ["r1", "r2"]))
        (runSched (attemptTraces "batch" ["r1", "r2"] [.success imgA, .failure "boom"])
          [0, 1, 0, 1, 0])).generationQueue,
      r.status ≠ .pending ∧ r.status ≠ .generating := by
  have h := batch_generation_resolves 0 sampleStateAB "a" "a cat" "batch" wSettings 0
    ["r1", "r2"] [.success imgA, .failure "boom"] [0, 1, 0, 1, 0]
    rfl rfl (by decide) rfl (by decide) (by decide)
  exact ⟨h.1, h.2⟩

end Daxer
